import Mathlib

/-!
Shallow embedding of the review-thread browser core of gh-pr-review
(src/main.go and src/tui.go): the data model, the pagination
accumulator `fetchAllThreads`, the filter engine `filterThreads`, the
filter cycle of `cycleFilter`, the navigation transitions
`nextThread`/`prevThread`/`firstThread`/`lastThread`, the render cache
(`cachedContent`/`storeContent`) behind `threadContent`, and the text
reflow engine (`wrapText`/`wrapPlainText`) with the markdown fallback
(`formatCommentBody`/`formatCommentBodyWithRenderer`).

Machine strings are modelled by Lean `String` (a list of characters;
Go byte lengths agree with character counts on the ASCII data the
claims exercise), Go `int` by `Int` (or by `Nat` where the source
maintains non-negativity), Go maps by association lists, and the
external glamour markdown renderer by an abstract function parameter.
-/

/-- Comment on a review thread (src/main.go `reviewComment`; the Go struct
nests the author login as `Author.Login`, flattened here to `authorLogin`). -/
structure reviewComment where
  id : String
  body : String
  createdAt : String
  url : String
  authorLogin : String
  deriving DecidableEq

/-- Review thread (src/main.go `reviewThread`; the Go wrapper struct
`reviewThreadComment` around the comment node list is flattened into the
`comments` field, and the four nullable line numbers are `Option Int`). -/
structure reviewThread where
  id : String
  isResolved : Bool
  isOutdated : Bool
  path : String
  line : Option Int
  originalLine : Option Int
  startLine : Option Int
  originalStart : Option Int
  comments : List reviewComment
  deriving DecidableEq

/-- Per-thread predicate applied by the `switch status` inside the loop of
src/main.go `filterThreads` (lines 306-321); an unrecognized status matches
no case and hence no thread. -/
def threadMatches (status : String) (t : reviewThread) : Bool :=
  if status = "resolved" then t.isResolved
  else if status = "unresolved" then !t.isResolved
  else if status = "resolved-no-reply" then t.isResolved && decide (t.comments.length ≤ 1)
  else false

/-- src/main.go `filterThreads` (lines 301-323): `"all"` returns the input
slice itself, any other status keeps exactly the threads accepted by the
corresponding `switch` case, in input order. -/
def filterThreads (threads : List reviewThread) (status : String) : List reviewThread :=
  if status = "all" then threads
  else threads.filter (threadMatches status)

/-- Successor of a filter mode, from the `switch m.status` at the top of
src/tui.go `cycleFilter` (lines 290-300): `next` starts as `"all"` and the
four cases send all → unresolved → resolved → resolved-no-reply → all. -/
def cycleStatus (status : String) : String :=
  if status = "all" then "unresolved"
  else if status = "unresolved" then "resolved"
  else if status = "resolved" then "resolved-no-reply"
  else if status = "resolved-no-reply" then "all"
  else "all"

/-- One page of the paginated reviewThreads GraphQL response
(src/main.go `listResponse`, restricted to the fields the pagination loop
reads: the node list, `hasNextPage` and the nullable `endCursor`). -/
structure page where
  threads : List reviewThread
  hasNextPage : Bool
  endCursor : Option String
  deriving DecidableEq

/-- The pagination loop of src/main.go `fetchAllThreads` (lines 275-297),
with the GraphQL call abstracted as `server : Option String → Except String page`
(a cursor in, either an error or a decoded page out).  `fuel` bounds the
number of iterations; a `none` result means the fuel was exhausted, i.e. the
Go `for` loop would still be running after `fuel` iterations. -/
def fetchLoop (server : Option String → Except String page) :
    Nat → Option String → List reviewThread → Option (Except String (List reviewThread))
  | 0, _, _ => none
  | fuel + 1, after, acc =>
    match server after with
    | Except.error e => some (Except.error e)
    | Except.ok p =>
      let all := acc ++ p.threads
      if p.hasNextPage then
        match p.endCursor with
        | none => some (Except.ok all)
        | some c => if c = "" then some (Except.ok all) else fetchLoop server fuel (some c) all
      else some (Except.ok all)

/-- src/main.go `fetchAllThreads` (lines 246-299): run the pagination loop
from the empty cursor with an empty accumulator. -/
def fetchAllThreads (server : Option String → Except String page) (fuel : Nat) :
    Option (Except String (List reviewThread)) :=
  fetchLoop server fuel none []

/-! ### String helpers (Go standard library functions used by the reflow engine) -/

/-- Split a character list at characters satisfying `p`, keeping (possibly
empty) pieces between separators; `acc` holds the reversed current piece. -/
def splitPredAux (p : Char → Bool) : List Char → List Char → List String
  | [], acc => [String.mk acc.reverse]
  | c :: cs, acc =>
    if p c then String.mk acc.reverse :: splitPredAux p cs []
    else splitPredAux p cs (c :: acc)

/-- Go `strings.Split(s, string(sep))` for a one-character separator:
`n` separators yield `n+1` (possibly empty) pieces. -/
def splitOnChar (sep : Char) (s : String) : List String :=
  splitPredAux (fun c => c = sep) s.toList []

/-- Go `strings.Fields`: the maximal runs of non-whitespace characters of
`s`, i.e. the pieces of a whitespace split with empty pieces dropped. -/
def fields (s : String) : List String :=
  (splitPredAux (fun c => c.isWhitespace) s.toList []).filter (fun w => w ≠ "")

/-- Go `strings.TrimSpace`: drop leading and trailing whitespace. -/
def trimS (s : String) : String :=
  String.mk (((s.toList.dropWhile Char.isWhitespace).reverse.dropWhile
    Char.isWhitespace).reverse)

/-- Go `strings.TrimRight(s, "\n")`: drop trailing newline characters. -/
def trimRightNewlines (s : String) : String :=
  String.mk ((s.toList.reverse.dropWhile (fun c => c = '\n')).reverse)

/-- Go `strings.HasPrefix`. -/
def startsWithS (s pre : String) : Bool :=
  decide (s.toList.take pre.toList.length = pre.toList)

/-- Go `strings.Join(ws, " ")`: words joined by single spaces. -/
def joinWords : List String → String
  | [] => ""
  | [w] => w
  | w :: x :: ws => w ++ " " ++ joinWords (x :: ws)

/-! ### Text reflow engine (src/main.go `wrapText` and `wrapPlainText`) -/

/-- The greedy word-wrap loop of src/main.go `wrapText` (lines 608-617):
`current` is the line under construction; a word is appended when
`len(current)+1+len(word)` still fits in `width`, otherwise the current
line is emitted and the word starts a new line. -/
def wrapTextAux (width : Int) (current : String) : List String → List String
  | [] => [current]
  | w :: ws =>
    if (current.length : Int) + 1 + (w.length : Int) > width then
      current :: wrapTextAux width w ws
    else
      wrapTextAux width (current ++ " " ++ w) ws

/-- src/main.go `wrapText` (lines 602-619): split `text` into fields and
greedily wrap them; an input with no fields yields the single empty line. -/
def wrapText (text : String) (width : Int) : List String :=
  match fields text with
  | [] => [""]
  | w :: ws => wrapTextAux width w ws

/-- The `flushParagraph` closure of src/main.go `wrapPlainText`
(lines 563-572): an empty paragraph emits nothing; otherwise the
accumulated trimmed lines are joined by spaces, wrapped to
`maxWidth - len(indent)` and indent-prefixed. -/
def flushParagraph (indent : String) (maxWidth : Int) (paragraph : List String) :
    List String :=
  if paragraph = [] then []
  else (wrapText (joinWords paragraph) (maxWidth - (indent.length : Int))).map
    (fun wrapped => indent ++ wrapped)

/-- The line loop of src/main.go `wrapPlainText` (lines 574-598), with the
output slice `out`, the paragraph buffer and the `inFence` flag threaded
explicitly.  A line whose trimmed form starts with three backticks flushes
the paragraph, emits a blank separator when the output has trailing content
(`out[len(out)-1] != indent`), passes the delimiter through verbatim and
toggles the fence flag; inside a fence every line passes through verbatim;
outside, blank lines flush and emit a blank line and other lines accumulate
trimmed into the paragraph buffer. -/
def wrapPlainTextLoop (indent : String) (maxWidth : Int) :
    List String → List String → List String → Bool → List String
  | [], out, paragraph, _ => out ++ flushParagraph indent maxWidth paragraph
  | line :: rest, out, paragraph, inFence =>
    if startsWithS (trimS line) "```" then
      let out := out ++ flushParagraph indent maxWidth paragraph
      let out := if out ≠ [] ∧ out.getLast? ≠ some indent then out ++ [indent] else out
      wrapPlainTextLoop indent maxWidth rest (out ++ [indent ++ line]) [] (!inFence)
    else if inFence then
      wrapPlainTextLoop indent maxWidth rest (out ++ [indent ++ line]) paragraph inFence
    else if trimS line = "" then
      wrapPlainTextLoop indent maxWidth rest
        (out ++ flushParagraph indent maxWidth paragraph ++ [indent]) [] inFence
    else
      wrapPlainTextLoop indent maxWidth rest out (paragraph ++ [trimS line]) inFence

/-- src/main.go `wrapPlainText` (lines 549-600): strip trailing newlines,
split into lines (the Go `len(lines) == 0` guard is kept although a Go
`strings.Split` never returns an empty slice), clamp the width to at least
`len(indent)+20` and run the line loop. -/
def wrapPlainText (body indent : String) (width : Int) : List String :=
  let lines := splitOnChar '\n' (trimRightNewlines body)
  if lines = [] then [indent]
  else
    let maxWidth := if width < (indent.length : Int) + 20
      then (indent.length : Int) + 20 else width
    wrapPlainTextLoop indent maxWidth lines [] [] false

/-! ### Markdown renderer adapter (src/main.go and src/tui.go) -/

/-- Abstract glamour terminal renderer: rendering a body either succeeds
with the rendered text or fails with an error (`renderer.Render` in Go). -/
def Renderer : Type := String → Except String String

/-- Abstract environment for the render pipeline: whether styling is
enabled (`styler.enabled`, from the terminal/NO_COLOR probe in
src/main.go `newStyler`) and the external glamour constructor
`glamour.NewTermRenderer(WithAutoStyle, WithWordWrap w)`, which for a
given word-wrap width either yields a renderer or fails (`none`). -/
structure renderEnv where
  stylerEnabled : Bool
  mkRenderer : Int → Option Renderer

/-- src/main.go `indentRendered` (lines 536-547): strip trailing newlines
from the rendered markdown; if nothing is left return the single indented
blank line, else prefix each line with the indent. -/
def indentRendered (rendered indent : String) : List String :=
  let trimmed := trimRightNewlines rendered
  if trimmed = "" then [indent]
  else (splitOnChar '\n' trimmed).map (fun line => indent ++ line)

/-- src/main.go `renderMarkdown` (lines 522-534): clamp the width to at
least 20, construct a glamour renderer at that word-wrap width (an error
if construction fails) and render the body with it. -/
def renderMarkdown (env : renderEnv) (body : String) (width : Int) :
    Except String String :=
  let width := if width < 20 then 20 else width
  match env.mkRenderer width with
  | none => Except.error "failed to construct renderer"
  | some r => r body

/-- src/main.go `formatCommentBody` (lines 512-520): when styling is
enabled try the markdown renderer at `width - len(indent)` and use its
output on success; otherwise (styling disabled, construction failure or
render error) fall back to the reflow engine.  Total: no error escapes. -/
def formatCommentBody (env : renderEnv) (body indent : String) (width : Int) :
    List String :=
  if env.stylerEnabled then
    match renderMarkdown env body (width - (indent.length : Int)) with
    | Except.ok rendered => indentRendered rendered indent
    | Except.error _ => wrapPlainText body indent width
  else wrapPlainText body indent width

/-- src/tui.go `formatCommentBodyWithRenderer` (lines 367-375): when
styling is enabled and a (pre-constructed, possibly nil) renderer is
available, use its output on success; otherwise fall back to the reflow
engine.  Total: no error escapes. -/
def formatCommentBodyWithRenderer (body indent : String) (width : Int)
    (stylerEnabled : Bool) (renderer : Option Renderer) : List String :=
  match renderer with
  | some r =>
    if stylerEnabled then
      match r body with
      | Except.ok rendered => indentRendered rendered indent
      | Except.error _ => wrapPlainText body indent width
    else wrapPlainText body indent width
  | none => wrapPlainText body indent width

/-! ### Styler (src/main.go `styler`) -/

/-- src/main.go `styler.wrap`: wrap the text in an ANSI escape when
styling is enabled, else pass it through. -/
def stylerWrap (enabled : Bool) (code text : String) : String :=
  if enabled then "\x1b[" ++ code ++ "m" ++ text ++ "\x1b[0m" else text

/-- src/main.go `styler.bullet`. -/
def stylerBullet (enabled : Bool) : String := stylerWrap enabled "2" "•"

/-- src/main.go `styler.author`. -/
def stylerAuthor (enabled : Bool) (text : String) : String :=
  stylerWrap enabled "34" text

/-- src/main.go `styler.dim`. -/
def stylerDim (enabled : Bool) (text : String) : String :=
  stylerWrap enabled "2" text

/-! ### Association lists (Go map values of the two TUI caches) -/

/-- Lookup in an association list (a Go map read `m[k]`, comma-ok form). -/
def lookupKV {α β : Type} [DecidableEq α] (k : α) : List (α × β) → Option β
  | [] => none
  | (k', v) :: rest => if k' = k then some v else lookupKV k rest

/-- Insert/overwrite in an association list (a Go map write `m[k] = v`). -/
def insertKV {α β : Type} [DecidableEq α] (k : α) (v : β) :
    List (α × β) → List (α × β)
  | [] => [(k, v)]
  | (k', v') :: rest =>
    if k' = k then (k, v) :: rest else (k', v') :: insertKV k v rest

/-! ### TUI browser model (src/tui.go `tuiModel`) -/

/-- The state of src/tui.go `tuiModel` that the browser logic reads and
writes: the immutable full thread list, the filtered visible list, the
current index, the current filter status, the two caches, and the embedded
viewport's width and content (the bubbles viewport is external; only the
`Width` field read by `threadContent` and the content set via `SetContent`
are modelled).  Presentation-only fields (owner, name, pr, ready, height)
are omitted. -/
structure tuiModel where
  allThreads : List reviewThread
  threads : List reviewThread
  index : Nat
  status : String
  viewportWidth : Int
  viewportContent : String
  contentCache : List (String × List (Int × String))
  rendererCache : List (Int × Renderer)

/-- Zero value used for the (unreachable in the claims) out-of-range index
read `m.threads[m.index]`, which would panic in Go. -/
def emptyThread : reviewThread :=
  { id := "", isResolved := false, isOutdated := false, path := "",
    line := none, originalLine := none, startLine := none,
    originalStart := none, comments := [] }

/-- The thread currently displayed, `m.threads[m.index]` in
src/tui.go `threadContent`. -/
def currentThread (m : tuiModel) : reviewThread :=
  m.threads.getD m.index emptyThread

/-- The width normalisation at the top of src/tui.go `threadContent`
(lines 321-324): a non-positive viewport width falls back to 120. -/
def normWidth (w : Int) : Int := if w ≤ 0 then 120 else w

/-- src/tui.go `cachedContent` (lines 395-405): an empty thread ID is
never cached; otherwise look up the per-thread width map and then the
width, returning the empty string on any miss. -/
def cachedContent (m : tuiModel) (threadID : String) (width : Int) : String :=
  if threadID = "" then ""
  else
    match lookupKV threadID m.contentCache with
    | none => ""
    | some perThread =>
      match lookupKV width perThread with
      | none => ""
      | some content => content

/-- src/tui.go `storeContent` (lines 407-417): an empty thread ID is never
stored; otherwise write `content` at key `width` into the (possibly fresh)
per-thread width map. -/
def storeContent (m : tuiModel) (threadID : String) (width : Int)
    (content : String) : tuiModel :=
  if threadID = "" then m
  else
    let perThread := (lookupKV threadID m.contentCache).getD []
    { m with contentCache :=
        insertKV threadID (insertKV width content perThread) m.contentCache }

/-- src/tui.go `rendererForWidth` (lines 377-393): clamp the width to at
least 20, return a cached renderer when present, otherwise construct a
glamour renderer at word-wrap `width - 2`; a construction failure returns
nil (`none`) and caches nothing, a success is cached under the clamped
width.  Returns the renderer together with the updated model. -/
def rendererForWidth (env : renderEnv) (m : tuiModel) (width : Int) :
    Option Renderer × tuiModel :=
  let width := if width < 20 then 20 else width
  match lookupKV width m.rendererCache with
  | some r => (some r, m)
  | none =>
    match env.mkRenderer (width - 2) with
    | none => (none, m)
    | some r => (some r, { m with rendererCache := insertKV width r m.rendererCache })

/-- One comment block of the builder loop in src/tui.go `threadContent`
(lines 333-346): the author/date meta line, the optional dimmed URL line,
a blank line, then the formatted body lines each terminated by a newline. -/
def renderComment (env : renderEnv) (renderer : Option Renderer) (width : Int)
    (c : reviewComment) : String :=
  let author := if c.authorLogin = "" then "unknown" else c.authorLogin
  let meta := stylerBullet env.stylerEnabled ++ " " ++
    stylerAuthor env.stylerEnabled author ++ " — " ++
    stylerDim env.stylerEnabled c.createdAt ++ "\n"
  let urlPart := if c.url ≠ "" then "  " ++ stylerDim env.stylerEnabled c.url ++ "\n"
    else ""
  let bodyLines := formatCommentBodyWithRenderer c.body "  " width
    env.stylerEnabled renderer
  meta ++ urlPart ++ "\n" ++ String.join (bodyLines.map (fun l => l ++ "\n"))

/-- The full builder loop of src/tui.go `threadContent` (lines 332-350):
comment blocks separated by one extra blank line (`if i < len-1`). -/
def renderThreadComments (env : renderEnv) (renderer : Option Renderer)
    (width : Int) : List reviewComment → String
  | [] => ""
  | [c] => renderComment env renderer width c
  | c :: c' :: rest =>
    renderComment env renderer width c ++ "\n" ++
      renderThreadComments env renderer width (c' :: rest)

/-- src/tui.go `threadContent` (lines 316-354): the no-threads message for
an empty visible list; otherwise normalise the viewport width, serve a
non-empty cache entry directly, and on a miss obtain the per-width
renderer, build the content from the comments, store it and return it.
The third component counts the render-pipeline invocations
(`formatCommentBodyWithRenderer` calls, one per comment) performed by this
computation — the call counter of the spec's cache property; it is 0
exactly when the content was served from the cache (or the list was
empty). -/
def threadContent (env : renderEnv) (m : tuiModel) : String × tuiModel × Nat :=
  if m.threads.isEmpty then ("no review threads found", m, 0)
  else
    let thread := currentThread m
    let width := normWidth m.viewportWidth
    let cached := cachedContent m thread.id width
    if cached ≠ "" then (cached, m, 0)
    else
      let rm := rendererForWidth env m width
      let content := renderThreadComments env rm.1 width thread.comments
      (content, storeContent rm.2 thread.id width content,
        thread.comments.length)

/-- `m.viewport.SetContent(m.threadContent())` as it appears throughout
src/tui.go: recompute the content (updating the caches) and store it in
the viewport.  (`GotoTop` only resets the external viewport's scroll
offset and is not modelled.) -/
def setViewportContent (env : renderEnv) (m : tuiModel) : tuiModel :=
  let r := threadContent env m
  { r.2.1 with viewportContent := r.1 }

/-! ### Navigation transitions (src/tui.go lines 244-287) -/

/-- src/tui.go `nextThread`: no-op on an empty list; advance and re-render
only when not already at the last position. -/
def nextThread (env : renderEnv) (m : tuiModel) : tuiModel :=
  if m.threads.length = 0 then m
  else if m.index < m.threads.length - 1 then
    setViewportContent env { m with index := m.index + 1 }
  else m

/-- src/tui.go `prevThread`: no-op on an empty list; step back and
re-render only when not already at position 0. -/
def prevThread (env : renderEnv) (m : tuiModel) : tuiModel :=
  if m.threads.length = 0 then m
  else if 0 < m.index then
    setViewportContent env { m with index := m.index - 1 }
  else m

/-- src/tui.go `firstThread`: no-op on an empty list or when already at 0;
else jump to 0 and re-render. -/
def firstThread (env : renderEnv) (m : tuiModel) : tuiModel :=
  if m.threads.length = 0 then m
  else if m.index ≠ 0 then setViewportContent env { m with index := 0 }
  else m

/-- src/tui.go `lastThread`: no-op on an empty list or when already at the
last position; else jump to `len-1` and re-render. -/
def lastThread (env : renderEnv) (m : tuiModel) : tuiModel :=
  if m.threads.length = 0 then m
  else if m.index ≠ m.threads.length - 1 then
    setViewportContent env { m with index := m.threads.length - 1 }
  else m

/-- src/tui.go `cycleFilter` (lines 289-314): advance the status along the
fixed cycle, recompute the visible list from the full list; an empty
result resets the index to 0 (the Empty state) and re-renders, otherwise
an out-of-range index is clamped to `len-1` and the content re-rendered. -/
def cycleFilter (env : renderEnv) (m : tuiModel) : tuiModel :=
  let next := cycleStatus m.status
  let m1 := { m with status := next, threads := filterThreads m.allThreads next }
  if m1.threads.length = 0 then
    setViewportContent env { m1 with index := 0 }
  else
    let m2 := if m1.threads.length ≤ m1.index
      then { m1 with index := m1.threads.length - 1 } else m1
    setViewportContent env m2

/-! ### Concrete fixtures used by witnesses and counterexamples -/

/-- Environment with styling disabled and no markdown renderer available. -/
def noRenderEnv : renderEnv := { stylerEnabled := false, mkRenderer := fun _ => none }

/-- A sample comment. -/
def comment1 : reviewComment :=
  { id := "C1", body := "hi there", createdAt := "2024-01-01", url := "",
    authorLogin := "alice" }

/-- A resolved thread with a single comment. -/
def thread1 : reviewThread :=
  { id := "T1", isResolved := true, isOutdated := false, path := "a.go",
    line := some 3, originalLine := none, startLine := none,
    originalStart := none, comments := [comment1] }

/-- An unresolved thread with three comments. -/
def thread2 : reviewThread :=
  { id := "T2", isResolved := false, isOutdated := false, path := "b.go",
    line := none, originalLine := some 7, startLine := none,
    originalStart := none, comments := [comment1, comment1, comment1] }

/-- A fresh browser model over the two sample threads. -/
def model1 : tuiModel :=
  { allThreads := [thread1, thread2], threads := [thread1, thread2],
    index := 0, status := "all", viewportWidth := 80, viewportContent := "",
    contentCache := [], rendererCache := [] }

/-! ## Helper lemmas -/

theorem lookupKV_insertKV_self {α β : Type} [DecidableEq α] (k : α) (v : β)
    (l : List (α × β)) : lookupKV k (insertKV k v l) = some v := by
  induction l with
  | nil => simp [lookupKV, insertKV]
  | cons kv rest ih =>
    obtain ⟨k', v'⟩ := kv
    by_cases h : k' = k
    · simp [lookupKV, insertKV, h]
    · simp [lookupKV, insertKV, h, ih]

theorem lookupKV_insertKV_ne {α β : Type} [DecidableEq α] {k k' : α} (v : β)
    (l : List (α × β)) (h : k' ≠ k) :
    lookupKV k' (insertKV k v l) = lookupKV k' l := by
  induction l with
  | nil => simp [lookupKV, insertKV, Ne.symm h]
  | cons kv rest ih =>
    obtain ⟨k'', v''⟩ := kv
    by_cases hk : k'' = k
    · subst hk
      simp [lookupKV, insertKV, Ne.symm h]
    · by_cases hk' : k'' = k'
      · simp [lookupKV, insertKV, hk, hk', h]
      · simp [lookupKV, insertKV, hk, hk', ih]

theorem cachedContent_storeContent_self (m : tuiModel) (tid : String)
    (w : Int) (c : String) (h : tid ≠ "") :
    cachedContent (storeContent m tid w c) tid w = c := by
  simp only [storeContent, cachedContent, if_neg h]
  rw [lookupKV_insertKV_self]
  dsimp only
  rw [lookupKV_insertKV_self]

theorem cachedContent_storeContent_ne_width (m : tuiModel) (tid : String)
    {w w' : Int} (c : String) (hw : w' ≠ w) :
    cachedContent (storeContent m tid w c) tid w' = cachedContent m tid w' := by
  by_cases h : tid = ""
  · simp [storeContent, h]
  · simp only [storeContent, cachedContent, if_neg h]
    rw [lookupKV_insertKV_self]
    dsimp only
    rw [lookupKV_insertKV_ne _ _ hw]
    cases hl : lookupKV tid m.contentCache with
    | none => simp [hl, lookupKV]
    | some perThread => simp [hl]

theorem cachedContent_eq_of_cache {m₁ m₂ : tuiModel}
    (h : m₁.contentCache = m₂.contentCache) (tid : String) (w : Int) :
    cachedContent m₁ tid w = cachedContent m₂ tid w := by
  unfold cachedContent
  rw [h]

theorem storeContent_shape (m : tuiModel) (tid : String) (w : Int) (c : String) :
    ∃ cc, storeContent m tid w c = { m with contentCache := cc } := by
  unfold storeContent
  split
  · exact ⟨m.contentCache, rfl⟩
  · exact ⟨_, rfl⟩

theorem rendererForWidth_shape (env : renderEnv) (m : tuiModel) (w : Int) :
    ∃ rc, (rendererForWidth env m w).2 = { m with rendererCache := rc } := by
  simp only [rendererForWidth]
  split
  · exact ⟨m.rendererCache, rfl⟩
  · split
    · exact ⟨m.rendererCache, rfl⟩
    · exact ⟨_, rfl⟩

theorem rendererForWidth_contentCache (env : renderEnv) (m : tuiModel) (w : Int) :
    ((rendererForWidth env m w).2).contentCache = m.contentCache := by
  obtain ⟨rc, h⟩ := rendererForWidth_shape env m w
  rw [h]

theorem threadContent_shape (env : renderEnv) (m : tuiModel) :
    ∃ cc rc, (threadContent env m).2.1
      = { m with contentCache := cc, rendererCache := rc } := by
  unfold threadContent
  split
  · exact ⟨m.contentCache, m.rendererCache, rfl⟩
  · dsimp only
    split
    · exact ⟨m.contentCache, m.rendererCache, rfl⟩
    · obtain ⟨rc, hr⟩ := rendererForWidth_shape env m (normWidth m.viewportWidth)
      obtain ⟨cc, hs⟩ := storeContent_shape ((rendererForWidth env m
        (normWidth m.viewportWidth)).2) (currentThread m).id
        (normWidth m.viewportWidth)
        (renderThreadComments env (rendererForWidth env m
          (normWidth m.viewportWidth)).1 (normWidth m.viewportWidth)
          (currentThread m).comments)
      refine ⟨cc, rc, ?_⟩
      dsimp only
      rw [hs, hr]

theorem setViewportContent_shape (env : renderEnv) (m : tuiModel) :
    ∃ v cc rc, setViewportContent env m
      = { m with viewportContent := v, contentCache := cc, rendererCache := rc } := by
  obtain ⟨cc, rc, h⟩ := threadContent_shape env m
  exact ⟨(threadContent env m).1, cc, rc, by rw [setViewportContent, h]⟩

theorem threadContent_hit (env : renderEnv) (m : tuiModel)
    (h1 : m.threads.isEmpty = false)
    (h2 : cachedContent m (currentThread m).id (normWidth m.viewportWidth) ≠ "") :
    threadContent env m
      = (cachedContent m (currentThread m).id (normWidth m.viewportWidth), m, 0) := by
  unfold threadContent
  rw [if_neg (by simp [h1])]
  dsimp only
  rw [if_pos h2]

theorem threadContent_miss (env : renderEnv) (m : tuiModel)
    (h1 : m.threads.isEmpty = false)
    (h2 : cachedContent m (currentThread m).id (normWidth m.viewportWidth) = "") :
    threadContent env m
      = (renderThreadComments env (rendererForWidth env m (normWidth m.viewportWidth)).1
           (normWidth m.viewportWidth) (currentThread m).comments,
         storeContent (rendererForWidth env m (normWidth m.viewportWidth)).2
           (currentThread m).id (normWidth m.viewportWidth)
           (renderThreadComments env (rendererForWidth env m (normWidth m.viewportWidth)).1
             (normWidth m.viewportWidth) (currentThread m).comments),
         (currentThread m).comments.length) := by
  unfold threadContent
  rw [if_neg (by simp [h1])]
  dsimp only
  rw [if_neg (by simp [h2])]

theorem setViewportContent_threads (env : renderEnv) (m : tuiModel) :
    (setViewportContent env m).threads = m.threads := by
  obtain ⟨v, cc, rc, h⟩ := setViewportContent_shape env m
  rw [h]

theorem setViewportContent_index (env : renderEnv) (m : tuiModel) :
    (setViewportContent env m).index = m.index := by
  obtain ⟨v, cc, rc, h⟩ := setViewportContent_shape env m
  rw [h]

theorem setViewportContent_status (env : renderEnv) (m : tuiModel) :
    (setViewportContent env m).status = m.status := by
  obtain ⟨v, cc, rc, h⟩ := setViewportContent_shape env m
  rw [h]

theorem setViewportContent_allThreads (env : renderEnv) (m : tuiModel) :
    (setViewportContent env m).allThreads = m.allThreads := by
  obtain ⟨v, cc, rc, h⟩ := setViewportContent_shape env m
  rw [h]

theorem setViewportContent_viewportWidth (env : renderEnv) (m : tuiModel) :
    (setViewportContent env m).viewportWidth = m.viewportWidth := by
  obtain ⟨v, cc, rc, h⟩ := setViewportContent_shape env m
  rw [h]

theorem cycleFilter_status (env : renderEnv) (m : tuiModel) :
    (cycleFilter env m).status = cycleStatus m.status := by
  unfold cycleFilter
  dsimp only
  split
  · rw [setViewportContent_status]
  · rw [setViewportContent_status]
    split <;> rfl

/-! ## Claim C2 -/

/-- Claim C2 (pagination termination): whatever page the server returns at
the current cursor, if that page reports `hasNextPage = false`, or reports
`hasNextPage = true` with a nil or empty end cursor, the accumulation loop
of `fetchAllThreads` stops right after appending that page — the result is
reached with any remaining fuel, so no infinite loop is possible; in
particular a server that forever answers `hasNextPage = true` with an empty
cursor terminates after the first page. -/
theorem fetchLoop_stops (server : Option String → Except String page)
    (fuel : Nat) (after : Option String) (acc : List reviewThread) (p : page)
    (hfetch : server after = Except.ok p)
    (hstop : p.hasNextPage = false ∨ p.endCursor = none ∨ p.endCursor = some "") :
    fetchLoop server (fuel + 1) after acc = some (Except.ok (acc ++ p.threads)) := by
  unfold fetchLoop
  rw [hfetch]
  rcases hstop with h | h | h
  · simp [h]
  · cases hnp : p.hasNextPage <;> simp [h, hnp]
  · cases hnp : p.hasNextPage <;> simp [h, hnp]

/-- A server that forever claims more pages but returns an empty cursor. -/
def adversarialServer : Option String → Except String page :=
  fun _ => Except.ok { threads := [thread1], hasNextPage := true, endCursor := some "" }

/-- Witness for C2: against the adversarial server the fetch finishes after
one page even with minimal fuel, instead of looping. -/
theorem fetchLoop_stops_witness :
    fetchAllThreads adversarialServer 1 = some (Except.ok [thread1]) := by
  have h := fetchLoop_stops adversarialServer 0 none []
    { threads := [thread1], hasNextPage := true, endCursor := some "" }
    rfl (Or.inr (Or.inr rfl))
  simpa [fetchAllThreads] using h

/-! ## Claim C3 -/

/-- Claim C3 (filter correctness): `filterThreads` at `"resolved"` keeps
exactly the resolved threads in order, at `"resolved-no-reply"` exactly the
resolved threads with at most one comment, at `"unresolved"` exactly the
unresolved threads, and at `"all"` returns the input list itself. -/
theorem filterThreads_modes (ts : List reviewThread) :
    filterThreads ts "resolved" = ts.filter (fun t => t.isResolved)
    ∧ filterThreads ts "resolved-no-reply"
        = ts.filter (fun t => t.isResolved && decide (t.comments.length ≤ 1))
    ∧ filterThreads ts "unresolved" = ts.filter (fun t => !t.isResolved)
    ∧ filterThreads ts "all" = ts :=
  ⟨rfl, rfl, rfl, rfl⟩

/-! ## Claim C10 -/

/-- Claim C10 (unknown filter status): a status outside the four recognized
values matches no `switch` case inside `filterThreads`, so the result is
the empty list, not the input. -/
theorem filterThreads_unknown_status (ts : List reviewThread) (status : String)
    (h1 : status ≠ "all") (h2 : status ≠ "resolved") (h3 : status ≠ "unresolved")
    (h4 : status ≠ "resolved-no-reply") :
    filterThreads ts status = [] := by
  unfold filterThreads
  rw [if_neg h1]
  simp only [List.filter_eq_nil_iff]
  intro t _
  simp [threadMatches, h2, h3, h4]

/-- Witness for C10 at a concrete unknown status and non-empty input. -/
theorem filterThreads_unknown_status_witness :
    filterThreads [thread1] "bogus" = [] :=
  filterThreads_unknown_status [thread1] "bogus"
    (by decide) (by decide) (by decide) (by decide)

/-! ## Claim C8 -/

/-- Claim C8 (filter cycle closure): from any of the four filter modes,
four `cycleFilter` transitions return the browser to the starting mode,
and the single-step successor follows the fixed order
all → unresolved → resolved → resolved-no-reply → all. -/
theorem cycleFilter_closure (env : renderEnv) (m : tuiModel)
    (h : m.status = "all" ∨ m.status = "unresolved" ∨ m.status = "resolved"
      ∨ m.status = "resolved-no-reply") :
    (cycleFilter env (cycleFilter env (cycleFilter env (cycleFilter env m)))).status
        = m.status
    ∧ (cycleFilter env m).status = cycleStatus m.status
    ∧ cycleStatus "all" = "unresolved"
    ∧ cycleStatus "unresolved" = "resolved"
    ∧ cycleStatus "resolved" = "resolved-no-reply"
    ∧ cycleStatus "resolved-no-reply" = "all" := by
  refine ⟨?_, cycleFilter_status env m, rfl, rfl, rfl, rfl⟩
  simp only [cycleFilter_status]
  rcases h with h | h | h | h <;> rw [h] <;> rfl

/-- Witness for C8: four cycles from the sample model (mode `"all"`)
return to `"all"`. -/
theorem cycleFilter_closure_witness :
    (cycleFilter noRenderEnv (cycleFilter noRenderEnv (cycleFilter noRenderEnv
      (cycleFilter noRenderEnv model1)))).status = "all" :=
  (cycleFilter_closure noRenderEnv model1 (Or.inl rfl)).1

/-! ## Claim C4 -/

/-- Claim C4 (index preservation on filter change): `cycleFilter`
recomputes the visible list from the full list at the new mode; when the
old index is still within the new list the index is unchanged, when it is
out of range and the new list is non-empty it is clamped to `len-1`, and
when the new list is empty the state becomes the Empty state (empty
visible list, index 0). -/
theorem cycleFilter_index (env : renderEnv) (m : tuiModel) :
    (cycleFilter env m).threads = filterThreads m.allThreads (cycleStatus m.status)
    ∧ (m.index < (filterThreads m.allThreads (cycleStatus m.status)).length →
        (cycleFilter env m).index = m.index)
    ∧ ((filterThreads m.allThreads (cycleStatus m.status)).length ≠ 0 →
        (filterThreads m.allThreads (cycleStatus m.status)).length ≤ m.index →
        (cycleFilter env m).index
          = (filterThreads m.allThreads (cycleStatus m.status)).length - 1)
    ∧ ((filterThreads m.allThreads (cycleStatus m.status)).length = 0 →
        (cycleFilter env m).threads = [] ∧ (cycleFilter env m).index = 0) := by
  unfold cycleFilter
  dsimp only
  split
  case isTrue h0 =>
    refine ⟨?_, ?_, ?_, ?_⟩
    · rw [setViewportContent_threads]
    · intro hlt
      omega
    · intro hne
      exact absurd h0 hne
    · intro _
      constructor
      · rw [setViewportContent_threads]
        exact List.length_eq_zero.mp h0
      · rw [setViewportContent_index]
  case isFalse h0 =>
    by_cases hc : (filterThreads m.allThreads (cycleStatus m.status)).length ≤ m.index
    · rw [if_pos hc]
      refine ⟨?_, ?_, ?_, ?_⟩
      · rw [setViewportContent_threads]
      · intro hlt
        omega
      · intro _ _
        rw [setViewportContent_index]
      · intro h
        exact absurd h h0
    · rw [if_neg hc]
      refine ⟨?_, ?_, ?_, ?_⟩
      · rw [setViewportContent_threads]
      · intro _
        rw [setViewportContent_index]
      · intro _ hge
        exact absurd hge hc
      · intro h
        exact absurd h h0

/-- Witness for C4: cycling the sample model from `"all"` to
`"unresolved"` leaves one visible thread and the old index 0 is preserved. -/
theorem cycleFilter_index_witness :
    (cycleFilter noRenderEnv model1).index = model1.index :=
  (cycleFilter_index noRenderEnv model1).2.1 (by decide)

/-! ## Claim C5 -/

/-- Claim C5 (navigation bounds): from any in-range index, `nextThread`
and `prevThread` stay in `[0, len-1]` (the lower bound is inherent in the
`Nat` index); `nextThread` at the last position leaves the whole state
unchanged; `firstThread`/`lastThread` are no-ops once at the corresponding
boundary; on an empty visible list all four transitions leave the state
unchanged. -/
theorem navigation_bounds (env : renderEnv) (m : tuiModel) :
    (m.index < m.threads.length →
      (nextThread env m).index < m.threads.length
      ∧ (prevThread env m).index < m.threads.length)
    ∧ (m.threads ≠ [] → m.index = m.threads.length - 1 → nextThread env m = m)
    ∧ (m.index = 0 → firstThread env m = m)
    ∧ (m.threads ≠ [] → m.index = m.threads.length - 1 → lastThread env m = m)
    ∧ (m.threads = [] → nextThread env m = m ∧ prevThread env m = m
        ∧ firstThread env m = m ∧ lastThread env m = m) := by
  refine ⟨?_, ?_, ?_, ?_, ?_⟩
  · intro hlt
    constructor
    · unfold nextThread
      split
      · exact hlt
      · split
        · rw [setViewportContent_index]
          dsimp only
          omega
        · exact hlt
    · unfold prevThread
      split
      · exact hlt
      · split
        · rw [setViewportContent_index]
          dsimp only
          omega
        · exact hlt
  · intro hne hlast
    unfold nextThread
    rw [if_neg (by simp [List.length_eq_zero, hne]), if_neg (by omega)]
  · intro h0
    unfold firstThread
    split
    · rfl
    · rw [if_neg (by simp [h0])]
  · intro hne hlast
    unfold lastThread
    rw [if_neg (by simp [List.length_eq_zero, hne]), if_neg (by simp [hlast])]
  · intro hnil
    have h0 : m.threads.length = 0 := by simp [hnil]
    exact ⟨by simp [nextThread, h0], by simp [prevThread, h0],
      by simp [firstThread, h0], by simp [lastThread, h0]⟩

/-- Witness for C5: on the sample model (2 threads, index 0) `nextThread`
stays in bounds and `firstThread` is a no-op. -/
theorem navigation_bounds_witness :
    (nextThread noRenderEnv model1).index < model1.threads.length
    ∧ firstThread noRenderEnv model1 = model1 :=
  ⟨((navigation_bounds noRenderEnv model1).1 (by decide)).1,
   (navigation_bounds noRenderEnv model1).2.2.1 rfl⟩

/-! ## Claim C1 -/

/-- A thread with an empty ID (same comments as `thread1`). -/
def threadEmptyID : reviewThread := { thread1 with id := "" }

/-- A browser model whose single visible thread has an empty ID. -/
def modelEmptyID : tuiModel :=
  { model1 with allThreads := [threadEmptyID], threads := [threadEmptyID] }

/-- Counterexample to C1 as stated: `cachedContent`/`storeContent` refuse
to cache an empty thread ID, so for a thread whose ID is `""` the second
`threadContent` computation at the same width re-invokes the rendering
pipeline (render counter 1, not 0), contrary to the claim's universal
"for every thread". -/
theorem threadContent_cache_counterexample :
    (threadContent noRenderEnv (threadContent noRenderEnv modelEmptyID).2.1).2.2 = 1
    ∧ (threadContent noRenderEnv modelEmptyID).2.2 = 1
    ∧ (currentThread modelEmptyID).id = "" := by
  refine ⟨rfl, rfl, rfl⟩

theorem threadContent_other_width (env : renderEnv) (m' : tuiModel)
    (tid : String) (w : Int)
    (hth : m'.threads.isEmpty = false)
    (hcur : (currentThread m').id = tid)
    (hw : w ≠ normWidth m'.viewportWidth) :
    cachedContent (threadContent env m').2.1 tid w = cachedContent m' tid w
    ∧ ((threadContent env m').1 ≠ "" ∧ tid ≠ "" →
        cachedContent (threadContent env m').2.1 tid (normWidth m'.viewportWidth)
          = (threadContent env m').1) := by
  subst hcur
  constructor
  · by_cases hcache : cachedContent m' (currentThread m').id
        (normWidth m'.viewportWidth) = ""
    · rw [threadContent_miss env m' hth hcache]
      dsimp only
      rw [cachedContent_storeContent_ne_width _ _ _ hw]
      exact cachedContent_eq_of_cache (rendererForWidth_contentCache env m' _) _ _
    · rw [threadContent_hit env m' hth hcache]
  · rintro ⟨hcne, htid⟩
    by_cases hcache : cachedContent m' (currentThread m').id
        (normWidth m'.viewportWidth) = ""
    · rw [threadContent_miss env m' hth hcache]
      exact cachedContent_storeContent_self _ _ _ _ htid
    · rw [threadContent_hit env m' hth hcache]

/-- Claim C1, amended (render cache correctness): for every thread whose
ID is non-empty and whose rendered content is non-empty, recomputing
`threadContent` at the same width returns identical content and performs
zero render-pipeline invocations (it is served from the cache populated by
the first computation); recomputing at a different (normalised) width
leaves the first width's cache entry intact and installs an independent
entry under the new width. -/
theorem threadContent_cache_correct (env : renderEnv) (m : tuiModel) (w' : Int)
    (hid : (currentThread m).id ≠ "")
    (hc : (threadContent env m).1 ≠ "") :
    (threadContent env (threadContent env m).2.1).1 = (threadContent env m).1
    ∧ (threadContent env (threadContent env m).2.1).2.2 = 0
    ∧ (normWidth w' ≠ normWidth m.viewportWidth →
        cachedContent (threadContent env
            { (threadContent env m).2.1 with viewportWidth := w' }).2.1
            (currentThread m).id (normWidth m.viewportWidth)
          = (threadContent env m).1
        ∧ ((threadContent env
              { (threadContent env m).2.1 with viewportWidth := w' }).1 ≠ "" →
            cachedContent (threadContent env
              { (threadContent env m).2.1 with viewportWidth := w' }).2.1
              (currentThread m).id (normWidth w')
            = (threadContent env
                { (threadContent env m).2.1 with viewportWidth := w' }).1)) := by
  have hne : m.threads.isEmpty = false := by
    cases h : m.threads.isEmpty
    · rfl
    · exfalso
      apply hid
      have hnil : m.threads = [] := List.isEmpty_iff.mp (by rw [h])
      simp [currentThread, hnil, emptyThread]
  obtain ⟨cc, rc, hm1shape⟩ := threadContent_shape env m
  have hm1threads : (threadContent env m).2.1.threads = m.threads := by rw [hm1shape]
  have hm1index : (threadContent env m).2.1.index = m.index := by rw [hm1shape]
  have hm1vw : (threadContent env m).2.1.viewportWidth = m.viewportWidth := by
    rw [hm1shape]
  have hm1cur : currentThread (threadContent env m).2.1 = currentThread m := by
    unfold currentThread
    rw [hm1threads, hm1index]
  have hkey : cachedContent (threadContent env m).2.1 (currentThread m).id
      (normWidth m.viewportWidth) = (threadContent env m).1 := by
    by_cases hcache : cachedContent m (currentThread m).id
        (normWidth m.viewportWidth) = ""
    · rw [threadContent_miss env m hne hcache]
      exact cachedContent_storeContent_self _ _ _ _ hid
    · rw [threadContent_hit env m hne hcache]
  have hne1 : (threadContent env m).2.1.threads.isEmpty = false := by
    rw [hm1threads]
    exact hne
  have hcache1 : cachedContent (threadContent env m).2.1
      (currentThread (threadContent env m).2.1).id
      (normWidth (threadContent env m).2.1.viewportWidth) ≠ "" := by
    rw [hm1cur, hm1vw, hkey]
    exact hc
  have hsecond := threadContent_hit env (threadContent env m).2.1 hne1 hcache1
  refine ⟨?_, ?_, ?_⟩
  · rw [hsecond]
    dsimp only
    rw [hm1cur, hm1vw, hkey]
  · rw [hsecond]
  · intro hw
    have hcur' : (currentThread
        { (threadContent env m).2.1 with viewportWidth := w' }).id
        = (currentThread m).id := by
      unfold currentThread
      dsimp only
      rw [hm1threads, hm1index]
    have h1 := threadContent_other_width env
      { (threadContent env m).2.1 with viewportWidth := w' }
      (currentThread m).id (normWidth m.viewportWidth) hne1 hcur' (Ne.symm hw)
    constructor
    · rw [h1.1]
      exact hkey
    · intro hc3
      exact h1.2 ⟨hc3, hid⟩

/-- Witness for the amended C1 on the sample model: the recomputation
returns the same content with zero render-pipeline invocations. -/
theorem threadContent_cache_correct_witness :
    (threadContent noRenderEnv (threadContent noRenderEnv model1).2.1).1
        = (threadContent noRenderEnv model1).1
    ∧ (threadContent noRenderEnv (threadContent noRenderEnv model1).2.1).2.2 = 0 := by
  have h := threadContent_cache_correct noRenderEnv model1 100 (by decide) (by decide)
  exact ⟨h.1, h.2.1⟩

/-! ## Reflow-engine lemmas (towards claims C6 and C7) -/

theorem wrapTextAux_length_le (width : Int) :
    ∀ (ws : List String) (current : String),
      (current.length : Int) ≤ width →
      (∀ w ∈ ws, (w.length : Int) ≤ width) →
      ∀ l ∈ wrapTextAux width current ws, (l.length : Int) ≤ width := by
  intro ws
  induction ws with
  | nil =>
    intro current hcur _ l hl
    simp only [wrapTextAux, List.mem_singleton] at hl
    subst hl
    exact hcur
  | cons w ws ih =>
    intro current hcur hws l hl
    simp only [wrapTextAux] at hl
    split at hl
    case isTrue h =>
      rcases List.mem_cons.mp hl with rfl | hl
      · exact hcur
      · exact ih w (hws w (List.mem_cons_self _ _))
          (fun x hx => hws x (List.mem_cons_of_mem _ hx)) l hl
    case isFalse h =>
      refine ih (current ++ " " ++ w) ?_
        (fun x hx => hws x (List.mem_cons_of_mem _ hx)) l hl
      have hsp : (" " : String).length = 1 := rfl
      have hlen : (current ++ " " ++ w).length = current.length + 1 + w.length := by
        rw [String.length_append, String.length_append, hsp]
      rw [hlen]
      push_cast
      omega

theorem wrapTextAux_mem_self (width : Int) (ws : List String) (current : String)
    (h : (current.length : Int) > width) :
    current ∈ wrapTextAux width current ws := by
  cases ws with
  | nil => simp [wrapTextAux]
  | cons w ws =>
    simp only [wrapTextAux]
    rw [if_pos (by have := Int.natCast_nonneg w.length; omega)]
    exact List.mem_cons_self _ _

theorem wrapTextAux_long_word (width : Int) :
    ∀ (ws : List String) (current w : String), w ∈ ws →
      (w.length : Int) > width → w ∈ wrapTextAux width current ws := by
  intro ws
  induction ws with
  | nil =>
    intro current w hw _
    exact absurd hw (List.not_mem_nil _)
  | cons x xs ih =>
    intro current w hw hlong
    rcases List.mem_cons.mp hw with rfl | hmem
    · simp only [wrapTextAux]
      rw [if_pos (by have := Int.natCast_nonneg current.length; omega)]
      exact List.mem_cons_of_mem _ (wrapTextAux_mem_self width xs w hlong)
    · simp only [wrapTextAux]
      split
      · exact List.mem_cons_of_mem _ (ih x w hmem hlong)
      · exact ih _ w hmem hlong

theorem joinWords_append_singleton (w : String) :
    ∀ (g : List String), g ≠ [] →
      joinWords (g ++ [w]) = joinWords g ++ " " ++ w := by
  intro g
  induction g with
  | nil => intro h; exact absurd rfl h
  | cons x g ih =>
    intro _
    cases g with
    | nil => rfl
    | cons y g' =>
      show x ++ " " ++ joinWords ((y :: g') ++ [w])
        = (x ++ " " ++ joinWords (y :: g')) ++ " " ++ w
      rw [ih (by simp)]
      simp [String.append_assoc]

theorem wrapTextAux_groups (width : Int) :
    ∀ (ws g : List String), g ≠ [] →
      ∃ groups : List (List String),
        wrapTextAux width (joinWords g) ws = groups.map joinWords
        ∧ groups.flatten = g ++ ws
        ∧ ∀ gr ∈ groups, gr ≠ [] := by
  intro ws
  induction ws with
  | nil =>
    intro g hg
    exact ⟨[g], by simp [wrapTextAux], by simp, by simp [hg]⟩
  | cons w ws ih =>
    intro g hg
    simp only [wrapTextAux]
    split
    case isTrue hcond =>
      obtain ⟨groups, h1, h2, h3⟩ := ih [w] (by simp)
      refine ⟨g :: groups, ?_, ?_, ?_⟩
      · have hjw : joinWords [w] = w := rfl
        rw [List.map_cons, ← h1, hjw]
      · rw [List.flatten_cons, h2]
        simp
      · intro gr hgr
        rcases List.mem_cons.mp hgr with rfl | hgr
        · exact hg
        · exact h3 gr hgr
    case isFalse hcond =>
      rw [← joinWords_append_singleton w g hg]
      obtain ⟨groups, h1, h2, h3⟩ := ih (g ++ [w]) (by simp)
      refine ⟨groups, h1, ?_, h3⟩
      rw [h2]
      simp

theorem wrapText_length_le (text : String) (width : Int) (h0 : 0 ≤ width)
    (hw : ∀ w ∈ fields text, (w.length : Int) ≤ width) :
    ∀ l ∈ wrapText text width, (l.length : Int) ≤ width := by
  intro l hl
  unfold wrapText at hl
  split at hl
  case h_1 heq =>
    simp only [List.mem_singleton] at hl
    subst hl
    simpa using h0
  case h_2 w ws heq =>
    refine wrapTextAux_length_le width ws w ?_ ?_ l hl
    · exact hw w (by rw [heq]; exact List.mem_cons_self _ _)
    · intro x hx
      exact hw x (by rw [heq]; exact List.mem_cons_of_mem _ hx)

theorem wrapText_long_word (text : String) (width : Int) (w : String)
    (hw : w ∈ fields text) (hlong : (w.length : Int) > width) :
    w ∈ wrapText text width := by
  unfold wrapText
  split
  case h_1 heq =>
    rw [heq] at hw
    simp at hw
  case h_2 x xs heq =>
    rw [heq] at hw
    rcases List.mem_cons.mp hw with rfl | hmem
    · exact wrapTextAux_mem_self width xs w hlong
    · exact wrapTextAux_long_word width xs x w hmem hlong

theorem wrapText_groups (text : String) (width : Int) :
    ∃ groups : List (List String),
      wrapText text width = groups.map joinWords
      ∧ groups.flatten = fields text := by
  unfold wrapText
  split
  case h_1 heq =>
    exact ⟨[[]], by simp [joinWords], by simp [heq]⟩
  case h_2 w ws heq =>
    obtain ⟨groups, h1, h2, _⟩ := wrapTextAux_groups width ws [w] (by simp)
    refine ⟨groups, ?_, ?_⟩
    · have hjw : joinWords [w] = w := rfl
      rw [← hjw]
      exact h1
    · rw [h2, heq]
      rfl

theorem splitPredAux_ne_nil (p : Char → Bool) :
    ∀ (cs acc : List Char), splitPredAux p cs acc ≠ [] := by
  intro cs
  induction cs with
  | nil =>
    intro acc
    simp [splitPredAux]
  | cons c cs ih =>
    intro acc
    unfold splitPredAux
    split
    · simp
    · exact ih _

theorem splitOnChar_ne_nil (sep : Char) (s : String) : splitOnChar sep s ≠ [] :=
  splitPredAux_ne_nil _ _ _

theorem wrapPlainTextLoop_paragraph (indent : String) (maxW : Int) :
    ∀ (lines out paragraph : List String),
      (∀ l ∈ lines, startsWithS (trimS l) "```" = false ∧ trimS l ≠ "") →
      wrapPlainTextLoop indent maxW lines out paragraph false
        = out ++ flushParagraph indent maxW (paragraph ++ lines.map trimS) := by
  intro lines
  induction lines with
  | nil =>
    intro out paragraph _
    simp [wrapPlainTextLoop]
  | cons l rest ih =>
    intro out paragraph h
    obtain ⟨hf, hb⟩ := h l (List.mem_cons_self _ _)
    rw [wrapPlainTextLoop]
    rw [if_neg (by simp [hf]), if_neg (by simp), if_neg hb]
    rw [ih out (paragraph ++ [trimS l])
      (fun x hx => h x (List.mem_cons_of_mem _ hx))]
    simp

theorem wrapPlainText_single_paragraph (body indent : String) (W : Int)
    (hpara : ∀ l ∈ splitOnChar '\n' (trimRightNewlines body),
      startsWithS (trimS l) "```" = false ∧ trimS l ≠ "") :
    wrapPlainText body indent W
      = flushParagraph indent
          (if W < (indent.length : Int) + 20 then (indent.length : Int) + 20 else W)
          ((splitOnChar '\n' (trimRightNewlines body)).map trimS) := by
  unfold wrapPlainText
  rw [if_neg (splitOnChar_ne_nil _ _)]
  rw [wrapPlainTextLoop_paragraph _ _ _ [] [] hpara]
  simp

theorem flushParagraph_spec (indent : String) (maxW : Int) (p : List String)
    (hmax : (indent.length : Int) + 20 ≤ maxW) :
    ((∀ w ∈ fields (joinWords p), (w.length : Int) ≤ maxW - (indent.length : Int)) →
      ∀ l ∈ flushParagraph indent maxW p, (l.length : Int) ≤ maxW)
    ∧ (∀ w ∈ fields (joinWords p),
        (w.length : Int) > maxW - (indent.length : Int) →
        (indent ++ w) ∈ flushParagraph indent maxW p)
    ∧ ∃ groups : List (List String),
        flushParagraph indent maxW p
          = groups.map (fun g => indent ++ joinWords g)
        ∧ groups.flatten = fields (joinWords p) := by
  unfold flushParagraph
  split
  case isTrue hp =>
    subst hp
    refine ⟨?_, ?_, [], by simp, by rfl⟩
    · intro _ l hl
      simp at hl
    · intro w hw
      have : fields (joinWords ([] : List String)) = [] := rfl
      rw [this] at hw
      simp at hw
  case isFalse hp =>
    refine ⟨?_, ?_, ?_⟩
    · intro hwords l hl
      rw [List.mem_map] at hl
      obtain ⟨wrapped, hwmem, rfl⟩ := hl
      have hb := wrapText_length_le (joinWords p)
        (maxW - (indent.length : Int)) (by omega) hwords wrapped hwmem
      rw [String.length_append]
      push_cast
      omega
    · intro w hw hlong
      exact List.mem_map_of_mem _
        (wrapText_long_word (joinWords p) (maxW - (indent.length : Int)) w hw hlong)
    · obtain ⟨groups, h1, h2⟩ :=
        wrapText_groups (joinWords p) (maxW - (indent.length : Int))
      refine ⟨groups, ?_, h2⟩
      rw [h1, List.map_map]
      rfl

theorem string_append_right_eq_self (indent x : String) :
    indent ++ x = indent ↔ x = "" := by
  constructor
  · intro h
    have hlen : (indent ++ x).length = indent.length := by rw [h]
    rw [String.length_append] at hlen
    have hx : x.data.length = 0 := by
      have : x.length = 0 := by omega
      exact this
    apply String.ext
    simpa using List.length_eq_zero.mp hx
  · intro h
    subst h
    exact String.append_empty indent

theorem getLast?_append_map (out : List String) (f : String → String)
    (mid : List String) (d : String) (hout : out.getLast? = some (f d)) :
    (out ++ mid.map f).getLast? = some (f (mid.getLastD d)) := by
  rcases eq_or_ne mid [] with rfl | hne
  · simpa using hout
  · obtain ⟨x, hx⟩ := Option.isSome_iff_exists.mp (List.getLast?_isSome.mpr hne)
    rw [List.getLast?_append, List.getLast?_map, hx, List.getLastD_eq_getLast?, hx]
    rfl

theorem wrapPlainTextLoop_prefix (indent : String) (maxW : Int) :
    ∀ (lines out paragraph : List String) (f : Bool),
      ∃ tail, wrapPlainTextLoop indent maxW lines out paragraph f = out ++ tail := by
  intro lines
  induction lines with
  | nil =>
    intro out paragraph f
    exact ⟨flushParagraph indent maxW paragraph, rfl⟩
  | cons l rest ih =>
    intro out paragraph f
    rw [wrapPlainTextLoop]
    by_cases hfence : startsWithS (trimS l) "```" = true
    · rw [if_pos hfence]
      dsimp only
      by_cases hc : (out ++ flushParagraph indent maxW paragraph) ≠ []
          ∧ (out ++ flushParagraph indent maxW paragraph).getLast? ≠ some indent
      · rw [if_pos hc]
        obtain ⟨tail, htail⟩ := ih
          (out ++ flushParagraph indent maxW paragraph ++ [indent] ++ [indent ++ l])
          [] (!f)
        exact ⟨flushParagraph indent maxW paragraph
            ++ ([indent] ++ ([indent ++ l] ++ tail)),
          by rw [htail]; simp [List.append_assoc]⟩
      · rw [if_neg hc]
        obtain ⟨tail, htail⟩ := ih
          (out ++ flushParagraph indent maxW paragraph ++ [indent ++ l]) [] (!f)
        exact ⟨flushParagraph indent maxW paragraph ++ ([indent ++ l] ++ tail),
          by rw [htail]; simp [List.append_assoc]⟩
    · rw [if_neg hfence]
      by_cases hin : f = true
      · rw [if_pos hin]
        obtain ⟨tail, htail⟩ := ih (out ++ [indent ++ l]) paragraph f
        exact ⟨[indent ++ l] ++ tail, by rw [htail]; simp [List.append_assoc]⟩
      · rw [if_neg hin]
        by_cases hblank : trimS l = ""
        · rw [if_pos hblank]
          obtain ⟨tail, htail⟩ := ih
            (out ++ flushParagraph indent maxW paragraph ++ [indent]) [] f
          exact ⟨flushParagraph indent maxW paragraph ++ ([indent] ++ tail),
            by rw [htail]; simp [List.append_assoc]⟩
        · rw [if_neg hblank]
          exact ih out (paragraph ++ [trimS l]) f

theorem wrapPlainTextLoop_fence (indent : String) (maxW : Int) :
    ∀ (mid rest out : List String),
      (∀ l ∈ mid, startsWithS (trimS l) "```" = false) →
      wrapPlainTextLoop indent maxW (mid ++ rest) out [] true
        = wrapPlainTextLoop indent maxW rest
            (out ++ mid.map (fun l => indent ++ l)) [] true := by
  intro mid
  induction mid with
  | nil =>
    intro rest out _
    simp
  | cons l mid ih =>
    intro rest out h
    rw [List.cons_append, wrapPlainTextLoop]
    rw [if_neg (by simp [h l (List.mem_cons_self _ _)]), if_pos rfl]
    rw [ih rest (out ++ [indent ++ l]) (fun x hx => h x (List.mem_cons_of_mem _ hx))]
    simp [List.append_assoc]

theorem wrapPlainTextLoop_state (indent : String) (maxW : Int) :
    ∀ (pre rest out paragraph : List String) (f : Bool),
      ∃ out' paragraph',
        wrapPlainTextLoop indent maxW (pre ++ rest) out paragraph f
          = wrapPlainTextLoop indent maxW rest out' paragraph'
              (pre.foldl (fun s l =>
                if startsWithS (trimS l) "```" = true then !s else s) f) := by
  intro pre
  induction pre with
  | nil =>
    intro rest out paragraph f
    exact ⟨out, paragraph, by simp⟩
  | cons l pre ih =>
    intro rest out paragraph f
    rw [List.cons_append, wrapPlainTextLoop, List.foldl_cons]
    by_cases hfence : startsWithS (trimS l) "```" = true
    · rw [if_pos hfence, if_pos hfence]
      dsimp only
      exact ih rest _ [] (!f)
    · rw [if_neg hfence, if_neg hfence]
      by_cases hin : f = true
      · rw [if_pos hin]
        exact ih rest (out ++ [indent ++ l]) paragraph f
      · rw [if_neg hin]
        by_cases hblank : trimS l = ""
        · rw [if_pos hblank]
          exact ih rest _ [] f
        · rw [if_neg hblank]
          exact ih rest out (paragraph ++ [trimS l]) f

theorem foldl_fence_state_parity :
    ∀ (pre : List String) (f : Bool),
      pre.foldl (fun s l =>
          if startsWithS (trimS l) "```" = true then !s else s) f
        = (if (pre.countP (fun l => startsWithS (trimS l) "```")) % 2 = 0
            then f else !f) := by
  intro pre
  induction pre with
  | nil =>
    intro f
    simp
  | cons l pre ih =>
    intro f
    rw [List.foldl_cons, ih]
    by_cases hfence : startsWithS (trimS l) "```" = true
    · have hcount : (l :: pre).countP (fun l => startsWithS (trimS l) "```")
          = pre.countP (fun l => startsWithS (trimS l) "```") + 1 :=
        by simp [List.countP_cons, hfence]
      rw [if_pos hfence, hcount]
      by_cases hp : (pre.countP (fun l => startsWithS (trimS l) "```")) % 2 = 0
      · rw [if_pos hp, if_neg (by omega)]
      · rw [if_neg hp, if_pos (by omega), Bool.not_not]
    · have hcount : (l :: pre).countP (fun l => startsWithS (trimS l) "```")
          = pre.countP (fun l => startsWithS (trimS l) "```") :=
        by simp [List.countP_cons, hfence]
      rw [if_neg hfence, hcount]

theorem wrapPlainTextLoop_fence_block (indent : String) (maxW : Int)
    (mid post : List String) (cd : String) (A : List String) (od : String)
    (hcd : startsWithS (trimS cd) "```" = true)
    (hmid : ∀ l ∈ mid, startsWithS (trimS l) "```" = false) :
    ∃ tail,
      wrapPlainTextLoop indent maxW (mid ++ cd :: post) (A ++ [indent ++ od]) [] true
        = A ++ (indent ++ od) :: (mid.map (fun l => indent ++ l)
            ++ (if mid.getLastD od = "" then [] else [indent])
            ++ (indent ++ cd) :: tail) := by
  rw [wrapPlainTextLoop_fence indent maxW mid (cd :: post) (A ++ [indent ++ od]) hmid]
  rw [wrapPlainTextLoop]
  rw [if_pos hcd]
  have hfp : flushParagraph indent maxW ([] : List String) = [] := rfl
  simp only [hfp, List.append_nil, Bool.not_true]
  have hlastB : ((A ++ [indent ++ od]) ++ mid.map (fun l => indent ++ l)).getLast?
      = some (indent ++ mid.getLastD od) :=
    getLast?_append_map _ _ _ _ (List.getLast?_concat _)
  by_cases hlast : mid.getLastD od = ""
  · rw [if_neg (by
      rintro ⟨_, hb⟩
      apply hb
      rw [hlastB, hlast, String.append_empty])]
    obtain ⟨tail, htail⟩ := wrapPlainTextLoop_prefix indent maxW post
      (((A ++ [indent ++ od]) ++ mid.map (fun l => indent ++ l)) ++ [indent ++ cd])
      [] false
    refine ⟨tail, ?_⟩
    rw [htail, if_pos hlast]
    simp [List.append_assoc]
  · rw [if_pos ⟨by simp, by
      rw [hlastB]
      simp only [ne_eq, Option.some.injEq, string_append_right_eq_self]
      exact hlast⟩]
    obtain ⟨tail, htail⟩ := wrapPlainTextLoop_prefix indent maxW post
      ((((A ++ [indent ++ od]) ++ mid.map (fun l => indent ++ l)) ++ [indent])
        ++ [indent ++ cd]) [] false
    refine ⟨tail, ?_⟩
    rw [htail, if_neg hlast]
    simp [List.append_assoc]

/-! ## Claim C7 -/

/-- Claim C7 (fence preservation): if the body's lines decompose as
`pre ++ [od] ++ mid ++ [cd] ++ post` where `od`/`cd` are fence-delimiter
lines (trimmed form starts with three backticks), `pre` contains an even
number of fence-delimiter lines (so the fence state is off when `od` is
reached — this covers every delimiter pair of the body, the k-th pair
having 2k delimiters before it) and `mid` contains no fence line, then
for every width the output of `wrapPlainText` contains — after some
prefix — the opening delimiter verbatim (indent-prefixed), then every
line of `mid` verbatim (indent-prefixed), unwrapped, exactly once and in
order, then a blank separator line exactly when the fence content leaves
trailing content (last emitted line not the bare indent), then the
closing delimiter verbatim.  The prefix itself ends with the blank
separator exactly when the output before the opening delimiter has
trailing content.  The emitted block does not depend on the width
argument. -/
theorem wrapPlainText_fence (body indent : String) (W : Int)
    (pre mid post : List String) (od cd : String)
    (hsplit : splitOnChar '\n' (trimRightNewlines body)
      = pre ++ od :: (mid ++ cd :: post))
    (hod : startsWithS (trimS od) "```" = true)
    (hcd : startsWithS (trimS cd) "```" = true)
    (heven : (pre.countP (fun l => startsWithS (trimS l) "```")) % 2 = 0)
    (hmid : ∀ l ∈ mid, startsWithS (trimS l) "```" = false) :
    ∃ before tail,
      wrapPlainText body indent W
        = (if before ≠ [] ∧ before.getLast? ≠ some indent
            then before ++ [indent] else before)
          ++ (indent ++ od) :: (mid.map (fun l => indent ++ l)
            ++ (if mid.getLastD od = "" then [] else [indent])
            ++ (indent ++ cd) :: tail) := by
  unfold wrapPlainText
  rw [hsplit]
  rw [if_neg (by simp)]
  generalize (if W < (indent.length : Int) + 20
    then (indent.length : Int) + 20 else W) = maxW
  obtain ⟨out', par', hpre'⟩ := wrapPlainTextLoop_state indent maxW pre
    (od :: (mid ++ cd :: post)) [] [] false
  rw [foldl_fence_state_parity, if_pos heven] at hpre'
  rw [hpre']
  rw [wrapPlainTextLoop]
  rw [if_pos hod]
  simp only [Bool.not_false]
  obtain ⟨tail, htail⟩ := wrapPlainTextLoop_fence_block indent maxW mid post cd _ od
    hcd hmid
  rw [htail]
  exact ⟨_, tail, rfl⟩

/-- Witness for C7 on a body with two fence blocks, instantiated at the
second pair of delimiters: `pre` holds the whole first fence (two
delimiter lines, an even count). -/
theorem wrapPlainText_fence_witness :
    ∃ before tail,
      wrapPlainText "intro\n```\nfirst block\n```\nmiddle text\n```\nsecond block\n```\nbye"
          "  " 30
        = (if before ≠ [] ∧ before.getLast? ≠ some "  "
            then before ++ ["  "] else before)
          ++ ("  " ++ "```") :: (["second block"].map (fun l => "  " ++ l)
            ++ (if ["second block"].getLastD "```" = "" then [] else ["  "])
            ++ ("  " ++ "```") :: tail) :=
  wrapPlainText_fence
    "intro\n```\nfirst block\n```\nmiddle text\n```\nsecond block\n```\nbye" "  " 30
    ["intro", "```", "first block", "```", "middle text"] ["second block"] ["bye"]
    "```" "```" (by decide) (by decide) (by decide) (by decide) (by decide)

/-! ## Claim C6 -/

/-- Counterexample to C6 as stated: at width 5 with indent of length 2 the
reflow engine clamps the effective width to `len(indent)+20 = 22`, so a
paragraph of 3-character words (no word exceeds any reading of the
budget) produces a 21-column line, which exceeds W = 5. -/
theorem wrapPlainText_width_counterexample :
    "  aaa aaa aaa aaa aaa" ∈ wrapPlainText "aaa aaa aaa aaa aaa aaa" "  " 5
    ∧ (("  aaa aaa aaa aaa aaa" : String).length : Int) > 5
    ∧ ∀ w ∈ fields "aaa aaa aaa aaa aaa aaa", (w.length : Int) ≤ 3 := by
  refine ⟨?_, ?_, ?_⟩ <;> decide

/-- Claim C6, amended (reflow wrap bound and word preservation): for a
single-paragraph body (no fence lines, no blank lines) and a width
`W ≥ len(indent)+20` (below that the engine clamps the effective width to
`len(indent)+20`, so the W-bound fails — see the counterexample):
if no word exceeds the budget `W - len(indent)` then no output line
exceeds W columns (indent included); a word longer than the budget is
emitted on its own line, unsplit, prefixed only by the indent; and the
output is exactly the input's word sequence partitioned in order into
lines (every word appears exactly once, in original order). -/
theorem wrapPlainText_reflow (body indent : String) (W : Int)
    (hW : (indent.length : Int) + 20 ≤ W)
    (hpara : ∀ l ∈ splitOnChar '\n' (trimRightNewlines body),
      startsWithS (trimS l) "```" = false ∧ trimS l ≠ "") :
    ((∀ w ∈ fields (joinWords ((splitOnChar '\n'
          (trimRightNewlines body)).map trimS)),
        (w.length : Int) ≤ W - (indent.length : Int)) →
      ∀ l ∈ wrapPlainText body indent W, (l.length : Int) ≤ W)
    ∧ (∀ w ∈ fields (joinWords ((splitOnChar '\n'
          (trimRightNewlines body)).map trimS)),
        (w.length : Int) > W - (indent.length : Int) →
        (indent ++ w) ∈ wrapPlainText body indent W)
    ∧ ∃ groups : List (List String),
        wrapPlainText body indent W
          = groups.map (fun g => indent ++ joinWords g)
        ∧ groups.flatten = fields (joinWords ((splitOnChar '\n'
            (trimRightNewlines body)).map trimS)) := by
  have hbridge := wrapPlainText_single_paragraph body indent W hpara
  rw [if_neg (by omega)] at hbridge
  rw [hbridge]
  exact flushParagraph_spec indent W
    ((splitOnChar '\n' (trimRightNewlines body)).map trimS) hW

/-- Witness for the amended C6 at a concrete paragraph and width 30. -/
theorem wrapPlainText_reflow_witness :
    (∀ l ∈ wrapPlainText "hello wrapping world" "  " 30, (l.length : Int) ≤ 30)
    ∧ ("  " ++ "incomprehensibilities-and-more")
        ∈ wrapPlainText "tiny incomprehensibilities-and-more words" "  " 30 := by
  have h1 := wrapPlainText_reflow "hello wrapping world" "  " 30
    (by decide) (by decide)
  have h2 := wrapPlainText_reflow "tiny incomprehensibilities-and-more words" "  " 30
    (by decide) (by decide)
  exact ⟨h1.1 (by decide), h2.2.1 "incomprehensibilities-and-more" (by decide) (by decide)⟩

/-! ## Claim C9 -/

/-- Claim C9 (markdown fallback on render failure): in both render paths
(`formatCommentBody` for the list view, `formatCommentBodyWithRenderer`
for the TUI), whenever styling is disabled, the renderer is unavailable
(nil / construction failed at the clamped width), or the render call
returns an error, the formatted output is exactly the reflow engine's
`wrapPlainText` for that body; both functions are total, so no error is
returned or surfaced to the caller. -/
theorem formatCommentBody_fallback (env : renderEnv) (ro : Option Renderer)
    (body indent : String) (width : Int) (b : Bool) :
    (env.stylerEnabled = false →
      formatCommentBody env body indent width = wrapPlainText body indent width)
    ∧ (env.mkRenderer (if width - (indent.length : Int) < 20 then 20
          else width - (indent.length : Int)) = none →
        formatCommentBody env body indent width = wrapPlainText body indent width)
    ∧ (∀ r e, env.mkRenderer (if width - (indent.length : Int) < 20 then 20
          else width - (indent.length : Int)) = some r → r body = Except.error e →
        formatCommentBody env body indent width = wrapPlainText body indent width)
    ∧ (formatCommentBodyWithRenderer body indent width b none
        = wrapPlainText body indent width)
    ∧ (formatCommentBodyWithRenderer body indent width false ro
        = wrapPlainText body indent width)
    ∧ (∀ r e, ro = some r → r body = Except.error e →
        formatCommentBodyWithRenderer body indent width b ro
          = wrapPlainText body indent width) := by
  refine ⟨?_, ?_, ?_, ?_, ?_, ?_⟩
  · intro hs
    simp [formatCommentBody, hs]
  · intro hmk
    by_cases hs : env.stylerEnabled
    · simp [formatCommentBody, hs, renderMarkdown, hmk]
    · simp [formatCommentBody, hs]
  · intro r e hr he
    by_cases hs : env.stylerEnabled
    · simp [formatCommentBody, hs, renderMarkdown, hr, he]
    · simp [formatCommentBody, hs]
  · rfl
  · cases ro <;> rfl
  · intro r e hro he
    subst hro
    cases b <;> simp [formatCommentBodyWithRenderer, he]

/-- Environment whose renderer constructs but always fails to render. -/
def errorRenderEnv : renderEnv :=
  { stylerEnabled := true, mkRenderer := fun _ => some (fun _ => Except.error "boom") }

/-- Witness for C9: a failing render and a nil renderer both fall back to
the reflow engine. -/
theorem formatCommentBody_fallback_witness :
    formatCommentBody errorRenderEnv "hi" "  " 80 = wrapPlainText "hi" "  " 80
    ∧ formatCommentBodyWithRenderer "hi" "  " 80 true none
        = wrapPlainText "hi" "  " 80 := by
  have h := formatCommentBody_fallback errorRenderEnv none "hi" "  " 80 true
  exact ⟨h.2.2.1 (fun _ => Except.error "boom") "boom" rfl rfl, h.2.2.2.1⟩
